import Mathlib

/-!
Shallow embedding of the `shortid` crate (src/lib.rs): a Snowflake/UUIDv1-style
identifier generator with three binary widths (128-, 96-, 64-bit), a per-context
(thread-local) timestamp/sequence state machine, a shared "atomic" path, and a
process-wide worker-id allocator.

Machine integers are modelled as `Nat` with explicit `% 2^w` where overflow
matters.  Rust bit operations on values whose operand ranges make them
equivalent to arithmetic are written arithmetically:
  `x & (2^k - 1)`  =  `x % 2^k`,   `x >> k`  =  `x / 2^k`,
  `a | b` = `a + b` when the set bits of `a` and `b` are disjoint
(each such spot is annotated with the original expression).
The system clock is passed in as an explicit `Nat` parameter (the value the
Rust `now()` call would return); byte arrays are `List Nat` with every entry
`< 256`.
-/

set_option maxHeartbeats 1000000

namespace Shortid

/-- `const UUID_TICKS_BETWEEN_EPOCHS: u64 = 0x01B2_1DD2_1381_4000;` -/
def UUID_TICKS_BETWEEN_EPOCHS : Nat := 0x01B21DD213814000

/-- `const TIMESTAMP42SHIFT: u8 = 13;` -/
def TIMESTAMP42SHIFT : Nat := 13

/-- The error enum of src/lib.rs. -/
inductive Error where
  | TimeOverflow
  | SystemTimeException
  | WorkerIDOverflow
  | EpochException
deriving DecidableEq, Repr

/-- The per-context (thread-local) mutable state: `TIMESTAMP: RefCell<u64>`
and `SEQ: RefCell<u16>`. -/
structure LocalState where
  timestamp : Nat
  seq : Nat
deriving DecidableEq, Repr

/-- The shared-path state: `TIMESTAMP_ATOM: AtomicU64` and `SEQ_ATOM: AtomicU16`
(initialized to 0). -/
structure AtomState where
  ts : Nat
  seq : Nat
deriving DecidableEq, Repr

/-- Big-endian bytes of a `u16` (`u16::to_be_bytes`). -/
def u16beBytes (x : Nat) : List Nat := [x / 2^8 % 2^8, x % 2^8]

/-- Big-endian bytes of a `u32` (`u32::to_be_bytes`). -/
def u32beBytes (x : Nat) : List Nat :=
  [x / 2^24 % 2^8, x / 2^16 % 2^8, x / 2^8 % 2^8, x % 2^8]

/-- `fn time_inc(min_interval: u16) -> Result<u64, Error>`.
`isT` is `cfg!(test)`; `nv` is the value `now()` would return (the guard
`cfg!(test) && (*time) >= now()?` reads the clock only in test builds).
On success `*time += u64::from(min_interval)` with u64 wrapping. -/
def time_inc (isT : Bool) (nv : Nat) (minInterval : Nat) (t : Nat) : Except Error Nat :=
  if isT = true ∧ nv ≤ t then Except.error Error.TimeOverflow
  else Except.ok ((t + minInterval) % 2^64)

/-- `fn next(min_interval: u16) -> Result<(u64, u16), Error>`: the per-context
sequence/timestamp state machine.  Returns the Rust result together with the
state after the call (unchanged when `time_inc` fails). -/
def next (isT : Bool) (nv i : Nat) (st : LocalState) :
    Except Error (Nat × Nat) × LocalState :=
  if st.seq < 2^14 - 1 then
    (Except.ok (st.timestamp, st.seq + 1), ⟨st.timestamp, st.seq + 1⟩)
  else
    match time_inc isT nv i st.timestamp with
    | Except.error e => (Except.error e, st)
    | Except.ok t => (Except.ok (t, 0), ⟨t, 0⟩)

/-- The 128-bit packing block shared verbatim by `next_short_128`,
`short_96_to_128` and `uuidv1` in the source; `tail` is the 6 trailing bytes.
  byte 0..3 : `((t & 0xFFFF_FFFF) as u32).to_be_bytes()`
  byte 4..5 : `(((t >> 32) & 0xFFFF) as u16).to_be_bytes()`
  byte 6..7 : `((((t >> 48) & 0x0FFF) as u16) | (1 << 12)).to_be_bytes()`
              (the or is `+ 2^12`: the masked operand is below `2^12`)
  byte 8    : `(((s & 0x3F00) >> 8) as u8) | 0x80` = `s / 2^8 % 2^6 + 2^7`
  byte 9    : `(s & 0xFF) as u8` -/
def encode128 (t s : Nat) (tail : List Nat) : List Nat :=
  u32beBytes (t % 2^32) ++ u16beBytes (t / 2^32 % 2^16) ++
  u16beBytes (t / 2^48 % 2^12 + 2^12) ++
  [s / 2^8 % 2^6 + 2^7, s % 2^8] ++ tail

/-- `pub fn next_short_128(machine_id: [u8; 4]) -> Result<[u8; 16], Error>`.
`w` is the context's worker id (the `u16` whose big-endian bytes
`worker_id()` returns); `m0..m3` the machine-id bytes. -/
def next_short_128 (isT : Bool) (nv : Nat) (w m0 m1 m2 m3 : Nat) (st : LocalState) :
    Except Error (List Nat) × LocalState :=
  match next isT nv 1 st with
  | (Except.error e, st') => (Except.error e, st')
  | (Except.ok (t, s), st') =>
      (Except.ok (encode128 t s (u16beBytes w ++ [m0, m1, m2, m3])), st')

/-- The 7 leading bytes shared by the 96- and 64-bit encodings, built from the
42-bit epoch-relative shifted timestamp `t` and the 14-bit sequence `s`:
  bytes 0..4 : `t_hi[3..7]` where `t_hi = (t >> 2).to_be_bytes()` (u64)
  bytes 5..6 : `(((t as u16) << 14) | s).to_be_bytes()`; since `s` comes from
  `next` it is at most `0x3FFF`, so the u16 value is `(t % 4) * 2^14 + s`. -/
def encode96core (t s : Nat) : List Nat :=
  [t / 4 / 2^32 % 2^8, t / 4 / 2^24 % 2^8, t / 4 / 2^16 % 2^8,
   t / 4 / 2^8 % 2^8, t / 4 % 2^8] ++ u16beBytes ((t % 4) * 2^14 + s)

/-- `pub fn next_short_96(machine_id: [u8; 3], epoch: u64) -> Result<[u8; 12], Error>`.
`next(1 << TIMESTAMP42SHIFT)`, then the two `checked_sub` epoch guards
(`EpochException` on underflow), then `>> TIMESTAMP42SHIFT` and packing. -/
def next_short_96 (isT : Bool) (nv : Nat) (w m0 m1 m2 : Nat) (epoch : Nat)
    (st : LocalState) : Except Error (List Nat) × LocalState :=
  match next isT nv (2^TIMESTAMP42SHIFT) st with
  | (Except.error e, st') => (Except.error e, st')
  | (Except.ok (traw, s), st') =>
      if traw < UUID_TICKS_BETWEEN_EPOCHS then (Except.error Error.EpochException, st')
      else if traw - UUID_TICKS_BETWEEN_EPOCHS < epoch then
        (Except.error Error.EpochException, st')
      else
        (Except.ok
          (encode96core ((traw - UUID_TICKS_BETWEEN_EPOCHS - epoch) / 2^TIMESTAMP42SHIFT) s
            ++ u16beBytes w ++ [m0, m1, m2]), st')

/-- `pub fn next_short_64(epoch: u64) -> Result<[u8; 8], Error>`.
First `if w[0] != 0 { return Err(Error::WorkerIDOverflow); }` (`w[0]` is the
high big-endian byte `w / 2^8 % 2^8` of the u16 worker id), then `next(10000)`,
then the same epoch-relative shift as the 96-bit format, with the single
worker byte `w[1] = w % 2^8` at the end. -/
def next_short_64 (isT : Bool) (nv : Nat) (w : Nat) (epoch : Nat)
    (st : LocalState) : Except Error (List Nat) × LocalState :=
  if w / 2^8 % 2^8 ≠ 0 then (Except.error Error.WorkerIDOverflow, st)
  else
    match next isT nv 10000 st with
    | (Except.error e, st') => (Except.error e, st')
    | (Except.ok (traw, s), st') =>
        if traw < UUID_TICKS_BETWEEN_EPOCHS then (Except.error Error.EpochException, st')
        else if traw - UUID_TICKS_BETWEEN_EPOCHS < epoch then
          (Except.error Error.EpochException, st')
        else
          (Except.ok
            (encode96core ((traw - UUID_TICKS_BETWEEN_EPOCHS - epoch) / 2^TIMESTAMP42SHIFT) s
              ++ [w % 2^8]), st')

/-- `pub fn short_96_to_128(short_96: [u8; 12], epoch: u64, machine_id_hi: u8) -> [u8; 16]`.
`u64::from_le_bytes([c[5],c[4],c[3],c[2],c[1],c[0],0,0])` is the big-endian
48-bit value of bytes 0..5; `(x >> 6) << 13` cannot wrap (x < 2^48) and the
two additions wrap in u64.  `u16::from_le_bytes([c[6],c[5]]) & 0x3fff` is
`(c6 + c5 * 2^8) % 2^14`. -/
def short_96_to_128 (c : List Nat) (epoch mhi : Nat) : List Nat :=
  match c with
  | [c0, c1, c2, c3, c4, c5, c6, c7, c8, c9, c10, c11] =>
      let x := c5 + c4 * 2^8 + c3 * 2^16 + c2 * 2^24 + c1 * 2^32 + c0 * 2^40
      let t := (x / 2^6 * 2^TIMESTAMP42SHIFT + epoch + UUID_TICKS_BETWEEN_EPOCHS) % 2^64
      let s := (c6 + c5 * 2^8) % 2^14
      encode128 t s [c7, c8, mhi, c9, c10, c11]
  | _ => []

/-- `pub fn short_64_to_96(short_64: [u8; 8], machine_id: [u8; 3]) -> [u8; 12]`. -/
def short_64_to_96 (sb : List Nat) (m0 m1 m2 : Nat) : List Nat :=
  match sb with
  | [s0, s1, s2, s3, s4, s5, s6, s7] => [s0, s1, s2, s3, s4, s5, s6, 0, s7, m0, m1, m2]
  | _ => []

/-- `pub fn short_64_to_128(short_64: [u8; 8], epoch: u64, machine_id: [u8; 4]) -> [u8; 16]`. -/
def short_64_to_128 (sb : List Nat) (epoch : Nat) (m0 m1 m2 m3 : Nat) : List Nat :=
  short_96_to_128 (short_64_to_96 sb m1 m2 m3) epoch m0

/-- `fn next_atom() -> Result<(u64, u16), Error>`: the shared-path state
machine.  `now0` is the clock value for `if *ts == 0 { *ts = now()? }`;
`now1` the fresh clock read `now()?` performed in the sequence-ceiling
branch. -/
def next_atom (now0 now1 : Nat) (st : AtomState) :
    Except Error (Nat × Nat) × AtomState :=
  let ts0 := if st.ts = 0 then now0 else st.ts
  if st.seq < 2^14 - 1 then
    (Except.ok (ts0, st.seq + 1), ⟨ts0, st.seq + 1⟩)
  else if now1 ≤ ts0 then
    (Except.error Error.TimeOverflow, ⟨ts0, st.seq⟩)
  else
    (Except.ok ((ts0 + 1) % 2^64, 0), ⟨(ts0 + 1) % 2^64, 0⟩)

/-- `pub fn uuidv1(machine_id: [u8; 6]) -> Result<[u8; 16], Error>`. -/
def uuidv1 (now0 now1 : Nat) (m0 m1 m2 m3 m4 m5 : Nat) (st : AtomState) :
    Except Error (List Nat) × AtomState :=
  match next_atom now0 now1 st with
  | (Except.error e, st') => (Except.error e, st')
  | (Except.ok (t, s), st') =>
      (Except.ok (encode128 t s [m0, m1, m2, m3, m4, m5]), st')

/-- `pub fn next_short_128_sync(machine_id: [u8; 6])` forwards to `uuidv1`. -/
def next_short_128_sync (now0 now1 : Nat) (m0 m1 m2 m3 m4 m5 : Nat) (st : AtomState) :
    Except Error (List Nat) × AtomState :=
  uuidv1 now0 now1 m0 m1 m2 m3 m4 m5 st

/-- The process-wide worker-id allocator state: `static mut COUNTER: AtomicUsize`. -/
structure Registry where
  counter : Nat
deriving DecidableEq, Repr

/-- Outcome of the `WORKER_ID` thread-local initializer: either a worker id, or
a process abort via `panic!("too many threads")`. -/
inductive AssignOutcome where
  | ok (id : Nat)
  | fatal (msg : String)
deriving DecidableEq, Repr

/-- The `WORKER_ID` thread-local initializer: `COUNTER.fetch_add(1, SeqCst)`,
then `if id > u16::max_value() as usize { panic!("too many threads") }`. -/
def assignWorker (r : Registry) : AssignOutcome × Registry :=
  (if 65535 < r.counter then AssignOutcome.fatal "too many threads"
   else AssignOutcome.ok r.counter,
   ⟨r.counter + 1⟩)

/-- Allocator state after `n` contexts have registered. -/
def registryAfter : Nat → Registry
  | 0 => ⟨0⟩
  | n + 1 => (assignWorker (registryAfter n)).2

/-- The value of a byte list read as a big-endian unsigned integer. -/
def beNat (l : List Nat) : Nat := l.foldl (fun a b => a * 2^8 + b) 0

/-- Per-context state after one production (`cfg!(test)` false) call with
minimum tick increment `i`. -/
def nextState (i : Nat) (st : LocalState) : LocalState := (next false 0 i st).2

/-- States of the thread-local `(TIMESTAMP, SEQ)` pair reachable in a
production build: the initializer pins `SEQ = 0` with an arbitrary clock
value, and the state is mutated only through `next` with one of the three
intervals actually passed to it (1, `1 << TIMESTAMP42SHIFT`, 10000). -/
inductive ReachLocal : LocalState → Prop where
  | seed : ∀ n, ReachLocal ⟨n, 0⟩
  | step : ∀ st nv i, ReachLocal st → (i = 1 ∨ i = 2^TIMESTAMP42SHIFT ∨ i = 10000) →
      ReachLocal (next false nv i st).2


lemma next_seq_lt (isT : Bool) (nv i : Nat) (st : LocalState) (h : st.seq < 2^14 - 1) :
    next isT nv i st =
      (Except.ok (st.timestamp, st.seq + 1), ⟨st.timestamp, st.seq + 1⟩) := by
  unfold next
  rw [if_pos h]

lemma next_false_wrap (nv i : Nat) (st : LocalState) (h : ¬ st.seq < 2^14 - 1) :
    next false nv i st =
      (Except.ok ((st.timestamp + i) % 2^64, 0), ⟨(st.timestamp + i) % 2^64, 0⟩) := by
  unfold next time_inc
  rw [if_neg h]
  simp

/-- The 96-bit generator's state after a call is exactly `next`'s state. -/
lemma next_short_96_snd (isT : Bool) (nv w m0 m1 m2 epoch : Nat) (st : LocalState) :
    (next_short_96 isT nv w m0 m1 m2 epoch st).2 = (next isT nv (2^TIMESTAMP42SHIFT) st).2 := by
  unfold next_short_96
  rcases next isT nv (2^TIMESTAMP42SHIFT) st with ⟨res, stn⟩
  rcases res with e | ⟨t, s⟩
  · rfl
  · simp only
    split
    · rfl
    · split <;> rfl

/-- The 64-bit generator's state after a call that passed the worker check. -/
lemma next_short_64_snd (isT : Bool) (nv w epoch : Nat) (st : LocalState)
    (hw : ¬ w / 2^8 % 2^8 ≠ 0) :
    (next_short_64 isT nv w epoch st).2 = (next isT nv 10000 st).2 := by
  unfold next_short_64
  rw [if_neg hw]
  rcases next isT nv 10000 st with ⟨res, stn⟩
  rcases res with e | ⟨t, s⟩
  · rfl
  · simp only
    split
    · rfl
    · split <;> rfl

theorem c9_epoch_error_state_advanced :
  ∀ (isT : Bool) (nv w m0 m1 m2 epoch : Nat) (st st' : LocalState),
    (next_short_96 isT nv w m0 m1 m2 epoch st = (Except.error Error.EpochException, st') →
      st' = (next isT nv (2^TIMESTAMP42SHIFT) st).2 ∧
      (st.seq < 2^14 - 1 → st' = ⟨st.timestamp, st.seq + 1⟩) ∧
      (¬ st.seq < 2^14 - 1 → isT = false →
        st' = ⟨(st.timestamp + 2^TIMESTAMP42SHIFT) % 2^64, 0⟩)) ∧
    (next_short_64 isT nv w epoch st = (Except.error Error.EpochException, st') →
      st' = (next isT nv 10000 st).2 ∧
      (st.seq < 2^14 - 1 → st' = ⟨st.timestamp, st.seq + 1⟩) ∧
      (¬ st.seq < 2^14 - 1 → isT = false →
        st' = ⟨(st.timestamp + 10000) % 2^64, 0⟩)) := by
  intro isT nv w m0 m1 m2 epoch st st'
  constructor
  · intro hgen
    have h2 : st' = (next isT nv (2^TIMESTAMP42SHIFT) st).2 := by
      rw [← next_short_96_snd isT nv w m0 m1 m2 epoch st, hgen]
    refine ⟨h2, ?_, ?_⟩
    · intro hlt
      rw [h2, next_seq_lt isT nv _ st hlt]
    · intro hge hfalse
      subst hfalse
      rw [h2, next_false_wrap nv _ st hge]
  · intro hgen
    have hw : ¬ w / 2^8 % 2^8 ≠ 0 := by
      by_contra hc
      unfold next_short_64 at hgen
      rw [if_pos hc] at hgen
      exact absurd (congrArg Prod.fst hgen) (by simp)
    have h2 : st' = (next isT nv 10000 st).2 := by
      rw [← next_short_64_snd isT nv w epoch st hw, hgen]
    refine ⟨h2, ?_, ?_⟩
    · intro hlt
      rw [h2, next_seq_lt isT nv _ st hlt]
    · intro hge hfalse
      subst hfalse
      rw [h2, next_false_wrap nv _ st hge]

/-- `next` can only fail with `TimeOverflow` (from `time_inc`), and then
leaves the state untouched. -/
lemma next_error_eq (isT : Bool) (nv i : Nat) (st stn : LocalState) (e : Error)
    (h : next isT nv i st = (Except.error e, stn)) :
    e = Error.TimeOverflow ∧ stn = st := by
  unfold next time_inc at h
  split at h
  · simp at h
  · by_cases hc : (isT = true ∧ nv ≤ st.timestamp)
    · rw [if_pos hc] at h
      simp at h
      exact ⟨h.1.symm, h.2.symm⟩
    · rw [if_neg hc] at h
      simp at h

/-- The allocator counter equals the number of contexts that registered. -/
lemma registryAfter_counter : ∀ n, (registryAfter n).counter = n := by
  intro n
  induction n with
  | zero => rfl
  | succ k ih => simp [registryAfter, assignWorker, ih]

/-- Claim C6 (amended): the Nth distinct context receives WorkerId N-1; once
the counter exceeds the 16-bit ceiling the initializer aborts via
`panic!("too many threads")` instead of returning an error value. -/
theorem c6_worker_allocation_order :
  ∀ (n : Nat) (r : Registry),
    (1 ≤ n → n ≤ 65536 → (assignWorker (registryAfter (n - 1))).1 = AssignOutcome.ok (n - 1)) ∧
    (registryAfter n).counter = n ∧
    (65535 < r.counter → (assignWorker r).1 = AssignOutcome.fatal "too many threads") := by
  intro n r
  refine ⟨?_, registryAfter_counter n, ?_⟩
  · intro h1 h2
    have hc := registryAfter_counter (n - 1)
    simp [assignWorker, hc]
    omega
  · intro hr
    simp [assignWorker, hr]

/-- Claim C6 counterexample: the 65537th context to request an identity hits
the `panic!("too many threads")` abort in the `WORKER_ID` initializer; no
`WorkerIDOverflow` error value is produced there. -/
theorem c6_counterexample_overflow_panics :
    (assignWorker (registryAfter 65536)).1 = AssignOutcome.fatal "too many threads" := by
  have hc := registryAfter_counter 65536
  simp [assignWorker, hc]

/-- Witness for `c6_worker_allocation_order` at `n = 3`. -/
theorem c6_worker_allocation_order_witness :
    (1 ≤ 3 ∧ 3 ≤ 65536) ∧ (assignWorker (registryAfter 2)).1 = AssignOutcome.ok 2 := by
  refine ⟨by omega, ?_⟩
  have h := (c6_worker_allocation_order 3 ⟨0⟩).1 (by omega) (by omega)
  simpa using h

/-- Claim C5: `next_short_64` rejects with `WorkerIDOverflow`, touching no
state, exactly when the context's worker id has a nonzero high byte (identity
256 or more); the first-ever context holds identity 0 and succeeds with worker
byte 0 (given a sane clock/epoch); `next_short_128` and `next_short_96` never
produce `WorkerIDOverflow`. -/
theorem c5_worker_id_overflow_64 :
  ∀ (isT : Bool) (nv epoch w m0 m1 m2 m3 : Nat) (st : LocalState),
    (w / 2^8 % 2^8 ≠ 0 →
      next_short_64 isT nv w epoch st = (Except.error Error.WorkerIDOverflow, st)) ∧
    (256 ≤ w → w < 2^16 →
      next_short_64 isT nv w epoch st = (Except.error Error.WorkerIDOverflow, st)) ∧
    (assignWorker (registryAfter 0)).1 = AssignOutcome.ok 0 ∧
    (st.seq ≤ 2^14 - 1 → UUID_TICKS_BETWEEN_EPOCHS ≤ st.timestamp →
      st.timestamp + 10000 < 2^64 →
      ∃ id st2, next_short_64 false nv 0 0 st = (Except.ok id, st2) ∧
        id.getD 7 0 = 0 ∧ id.length = 8) ∧
    (∀ e st2, next_short_128 isT nv w m0 m1 m2 m3 st = (Except.error e, st2) →
      e ≠ Error.WorkerIDOverflow) ∧
    (∀ e st2, next_short_96 isT nv w m0 m1 m2 epoch st = (Except.error e, st2) →
      e ≠ Error.WorkerIDOverflow) := by
  intro isT nv epoch w m0 m1 m2 m3 st
  refine ⟨?_, ?_, by rfl, ?_, ?_, ?_⟩
  · intro hw
    unfold next_short_64
    rw [if_pos hw]
  · intro h256 h16
    unfold next_short_64
    rw [if_pos (by omega)]
  · intro hseq hoff hno
    rcases Nat.lt_or_ge st.seq (2^14 - 1) with hlt | hge
    · have heq : next_short_64 false nv 0 0 st =
        (Except.ok (encode96core
            ((st.timestamp - UUID_TICKS_BETWEEN_EPOCHS - 0) / 2^TIMESTAMP42SHIFT)
            (st.seq + 1) ++ [0 % 2^8]),
          ⟨st.timestamp, st.seq + 1⟩) := by
        unfold next_short_64
        rw [if_neg (by omega), next_seq_lt false nv _ st hlt]
        simp only
        rw [if_neg (by omega), if_neg (by omega)]
      exact ⟨_, _, heq, by simp [encode96core, u16beBytes, List.getD],
        by simp [encode96core, u16beBytes]⟩
    · have hge2 : ¬ st.seq < 2^14 - 1 := by omega
      have heq : next_short_64 false nv 0 0 st =
        (Except.ok (encode96core
            ((st.timestamp + 10000 - UUID_TICKS_BETWEEN_EPOCHS - 0) / 2^TIMESTAMP42SHIFT)
            0 ++ [0 % 2^8]),
          ⟨(st.timestamp + 10000) % 2^64, 0⟩) := by
        unfold next_short_64
        rw [if_neg (by omega), next_false_wrap nv _ st hge2]
        simp only
        rw [Nat.mod_eq_of_lt hno]
        rw [if_neg (by omega), if_neg (by omega)]
      exact ⟨_, _, heq, by simp [encode96core, u16beBytes, List.getD],
        by simp [encode96core, u16beBytes]⟩
  · intro e st2 hgen
    unfold next_short_128 at hgen
    rcases hn : next isT nv 1 st with ⟨res, stn⟩
    rw [hn] at hgen
    rcases res with e2 | ⟨t, s⟩
    · have he : e2 = e := by
        have := congrArg Prod.fst hgen
        simpa using this
      have ht := (next_error_eq isT nv 1 st stn e2 hn).1
      simp [← he, ht]
    · exact absurd (congrArg Prod.fst hgen) (by simp)
  · intro e st2 hgen
    unfold next_short_96 at hgen
    rcases hn : next isT nv (2^TIMESTAMP42SHIFT) st with ⟨res, stn⟩
    rw [hn] at hgen
    rcases res with e2 | ⟨t, s⟩
    · have he : e2 = e := by
        have := congrArg Prod.fst hgen
        simpa using this
      have ht := (next_error_eq isT nv (2^TIMESTAMP42SHIFT) st stn e2 hn).1
      simp [← he, ht]
    · simp only at hgen
      split at hgen
      · have he : Error.EpochException = e := by
          have := congrArg Prod.fst hgen
          simpa using this
        simp [← he]
      · split at hgen
        · have he : Error.EpochException = e := by
            have := congrArg Prod.fst hgen
            simpa using this
          simp [← he]
        · exact absurd (congrArg Prod.fst hgen) (by simp)

/-- Witness for `c5_worker_id_overflow_64`: worker identity 300 is rejected on
every 64-bit call. -/
theorem c5_worker_id_overflow_64_witness :
    (256 ≤ 300 ∧ 300 < 2^16) ∧
    next_short_64 false 0 300 0 ⟨UUID_TICKS_BETWEEN_EPOCHS, 0⟩ =
      (Except.error Error.WorkerIDOverflow, ⟨UUID_TICKS_BETWEEN_EPOCHS, 0⟩) := by
  refine ⟨by omega, ?_⟩
  exact (c5_worker_id_overflow_64 false 0 0 300 0 0 0 0
    ⟨UUID_TICKS_BETWEEN_EPOCHS, 0⟩).2.1 (by omega) (by omega)


/-- A successful `next` call returns exactly the new state, which is either a
sequence increment (timestamp untouched) or a timestamp bump with sequence 0. -/
lemma next_ok_state (isT : Bool) (nv i : Nat) (st stn : LocalState) (t s : Nat)
    (h : next isT nv i st = (Except.ok (t, s), stn)) :
    stn = ⟨t, s⟩ ∧
    ((st.seq < 2^14 - 1 ∧ t = st.timestamp ∧ s = st.seq + 1) ∨
     (¬ st.seq < 2^14 - 1 ∧ t = (st.timestamp + i) % 2^64 ∧ s = 0)) := by
  unfold next time_inc at h
  split at h
  case isTrue hlt =>
    simp only [Prod.mk.injEq, Except.ok.injEq] at h
    refine ⟨?_, Or.inl ⟨hlt, h.1.1.symm, h.1.2.symm⟩⟩
    rw [← h.1.1, ← h.1.2]
    exact h.2.symm
  case isFalse hge =>
    by_cases hc : (isT = true ∧ nv ≤ st.timestamp)
    · rw [if_pos hc] at h
      simp at h
    · rw [if_neg hc] at h
      simp only [Prod.mk.injEq, Except.ok.injEq] at h
      refine ⟨?_, Or.inr ⟨hge, h.1.1.symm, h.1.2.symm⟩⟩
      rw [← h.1.1, ← h.1.2]
      exact h.2.symm

/-- Inversion of a successful `next_short_96` call: the epoch guards passed,
the state is `next`'s state, and the identifier is the packed bytes of the
shifted epoch-relative timestamp, sequence, worker id and machine id. -/
lemma next_short_96_ok_inv (isT : Bool) (nv w m0 m1 m2 epoch : Nat)
    (st st' : LocalState) (id96 : List Nat)
    (h : next_short_96 isT nv w m0 m1 m2 epoch st = (Except.ok id96, st')) :
    UUID_TICKS_BETWEEN_EPOCHS + epoch ≤ st'.timestamp ∧
    next isT nv (2^TIMESTAMP42SHIFT) st = (Except.ok (st'.timestamp, st'.seq), st') ∧
    id96 = encode96core
        ((st'.timestamp - UUID_TICKS_BETWEEN_EPOCHS - epoch) / 2^TIMESTAMP42SHIFT) st'.seq
      ++ u16beBytes w ++ [m0, m1, m2] := by
  unfold next_short_96 at h
  rcases hn : next isT nv (2^TIMESTAMP42SHIFT) st with ⟨res, stn⟩
  rw [hn] at h
  rcases res with e | ⟨t, s⟩
  · exact absurd (congrArg Prod.fst h) (by simp)
  · simp only at h
    split at h
    · exact absurd (congrArg Prod.fst h) (by simp)
    · split at h
      · exact absurd (congrArg Prod.fst h) (by simp)
      · simp only [Prod.mk.injEq, Except.ok.injEq] at h
        obtain ⟨hid, hstn⟩ := h
        have hts := (next_ok_state isT nv _ st stn t s hn).1
        rw [hstn] at hts
        have ht : st'.timestamp = t := by rw [hts]
        have hs : st'.seq = s := by rw [hts]
        refine ⟨by omega, ?_, ?_⟩
        · rw [ht, hs, hstn]
        · rw [ht, hs]
          exact hid.symm

/-- Inversion of a successful `next_short_64` call. -/
lemma next_short_64_ok_inv (isT : Bool) (nv w epoch : Nat)
    (st st' : LocalState) (id64 : List Nat)
    (h : next_short_64 isT nv w epoch st = (Except.ok id64, st')) :
    w / 2^8 % 2^8 = 0 ∧
    UUID_TICKS_BETWEEN_EPOCHS + epoch ≤ st'.timestamp ∧
    next isT nv 10000 st = (Except.ok (st'.timestamp, st'.seq), st') ∧
    id64 = encode96core
        ((st'.timestamp - UUID_TICKS_BETWEEN_EPOCHS - epoch) / 2^TIMESTAMP42SHIFT) st'.seq
      ++ [w % 2^8] := by
  unfold next_short_64 at h
  split at h
  case isTrue => exact absurd (congrArg Prod.fst h) (by simp)
  case isFalse hw =>
    refine ⟨by omega, ?_⟩
    rcases hn : next isT nv 10000 st with ⟨res, stn⟩
    rw [hn] at h
    rcases res with e | ⟨t, s⟩
    · exact absurd (congrArg Prod.fst h) (by simp)
    · simp only at h
      split at h
      · exact absurd (congrArg Prod.fst h) (by simp)
      · split at h
        · exact absurd (congrArg Prod.fst h) (by simp)
        · simp only [Prod.mk.injEq, Except.ok.injEq] at h
          obtain ⟨hid, hstn⟩ := h
          have hts := (next_ok_state isT nv _ st stn t s hn).1
          rw [hstn] at hts
          have ht : st'.timestamp = t := by rw [hts]
          have hs : st'.seq = s := by rw [hts]
          refine ⟨by omega, ?_, ?_⟩
          · rw [ht, hs, hstn]
          · rw [ht, hs]
            exact hid.symm

/-- Inversion of a successful `next_short_128` call. -/
lemma next_short_128_ok_inv (isT : Bool) (nv w m0 m1 m2 m3 : Nat)
    (st st' : LocalState) (id : List Nat)
    (h : next_short_128 isT nv w m0 m1 m2 m3 st = (Except.ok id, st')) :
    next isT nv 1 st = (Except.ok (st'.timestamp, st'.seq), st') ∧
    id = encode128 st'.timestamp st'.seq (u16beBytes w ++ [m0, m1, m2, m3]) := by
  unfold next_short_128 at h
  rcases hn : next isT nv 1 st with ⟨res, stn⟩
  rw [hn] at h
  rcases res with e | ⟨t, s⟩
  · exact absurd (congrArg Prod.fst h) (by simp)
  · simp only [Prod.mk.injEq, Except.ok.injEq] at h
    obtain ⟨hid, hstn⟩ := h
    have hts := (next_ok_state isT nv _ st stn t s hn).1
    rw [hstn] at hts
    have ht : st'.timestamp = t := by rw [hts]
    have hs : st'.seq = s := by rw [hts]
    refine ⟨?_, ?_⟩
    · rw [ht, hs, hstn]
    · rw [ht, hs]
      exact hid.symm

/-- The 128-bit generator's state after a call is exactly `next`'s state. -/
lemma next_short_128_snd (isT : Bool) (nv w m0 m1 m2 m3 : Nat) (st : LocalState) :
    (next_short_128 isT nv w m0 m1 m2 m3 st).2 = (next isT nv 1 st).2 := by
  unfold next_short_128
  rcases next isT nv 1 st with ⟨res, stn⟩
  rcases res with e | ⟨t, s⟩
  · rfl
  · rfl

/-- Iterating production calls from a fresh-sequence state walks the sequence
up without touching the timestamp. -/
lemma nextState_iter_seq (i t : Nat) :
    ∀ k, k ≤ 2^14 - 1 → (nextState i)^[k] ⟨t, 0⟩ = ⟨t, k⟩ := by
  intro k
  induction k with
  | zero => intro _; rfl
  | succ j ih =>
    intro hk
    rw [Function.iterate_succ_apply', ih (by omega)]
    unfold nextState
    rw [next_seq_lt false 0 i ⟨t, j⟩ (by show j < 2^14 - 1; omega)]

/-- Bytes 6 and 8 of the shared 128-bit packing block always carry the UUID
version nibble 1 and the RFC-4122 variant bits 10. -/
lemma encode128_version_variant (t s : Nat) (tail : List Nat) :
    (encode128 t s tail).getD 6 0 / 2^4 = 1 ∧ (encode128 t s tail).getD 8 0 / 2^6 = 2 := by
  constructor
  · simp [encode128, u32beBytes, u16beBytes, List.getD]
    omega
  · simp [encode128, u32beBytes, u16beBytes, List.getD]
    omega

/-- Claim C8: every 16-byte identifier produced by `next_short_128`, `uuidv1`,
`short_96_to_128` or `short_64_to_128` carries the UUID version nibble `0001`
in the high four bits of byte 6 and the RFC-4122 variant bits `10` in the high
two bits of byte 8, for all timestamp, sequence, worker-id and machine-id
values. -/
theorem c8_uuid_version_and_variant :
  ∀ (isT : Bool) (nv n0 n1 w m0 m1 m2 m3 m4 m5 epoch mhi : Nat)
    (st st' : LocalState) (stA stA' : AtomState) (id idA : List Nat)
    (c0 c1 c2 c3 c4 c5 c6 c7 c8 c9 c10 c11 : Nat)
    (b0 b1 b2 b3 b4 b5 b6 b7 : Nat),
    (next_short_128 isT nv w m0 m1 m2 m3 st = (Except.ok id, st') →
      id.getD 6 0 / 2^4 = 1 ∧ id.getD 8 0 / 2^6 = 2) ∧
    (uuidv1 n0 n1 m0 m1 m2 m3 m4 m5 stA = (Except.ok idA, stA') →
      idA.getD 6 0 / 2^4 = 1 ∧ idA.getD 8 0 / 2^6 = 2) ∧
    ((short_96_to_128 [c0, c1, c2, c3, c4, c5, c6, c7, c8, c9, c10, c11] epoch mhi).getD 6 0 / 2^4 = 1 ∧
     (short_96_to_128 [c0, c1, c2, c3, c4, c5, c6, c7, c8, c9, c10, c11] epoch mhi).getD 8 0 / 2^6 = 2) ∧
    ((short_64_to_128 [b0, b1, b2, b3, b4, b5, b6, b7] epoch m0 m1 m2 m3).getD 6 0 / 2^4 = 1 ∧
     (short_64_to_128 [b0, b1, b2, b3, b4, b5, b6, b7] epoch m0 m1 m2 m3).getD 8 0 / 2^6 = 2) := by
  intro isT nv n0 n1 w m0 m1 m2 m3 m4 m5 epoch mhi st st' stA stA' id idA
  intro c0 c1 c2 c3 c4 c5 c6 c7 c8 c9 c10 c11 b0 b1 b2 b3 b4 b5 b6 b7
  refine ⟨?_, ?_, ?_, ?_⟩
  · intro hgen
    obtain ⟨-, hid⟩ := next_short_128_ok_inv isT nv w m0 m1 m2 m3 st st' id hgen
    rw [hid]
    exact encode128_version_variant _ _ _
  · intro hgen
    unfold uuidv1 at hgen
    rcases hn : next_atom n0 n1 stA with ⟨res, stn⟩
    rw [hn] at hgen
    rcases res with e | ⟨t, s⟩
    · exact absurd (congrArg Prod.fst hgen) (by simp)
    · simp only [Prod.mk.injEq, Except.ok.injEq] at hgen
      rw [← hgen.1]
      exact encode128_version_variant _ _ _
  · simp only [short_96_to_128]
    exact encode128_version_variant _ _ _
  · simp only [short_64_to_128, short_64_to_96, short_96_to_128]
    exact encode128_version_variant _ _ _

/-- Claim C7: at the sequence ceiling the shared atomic path compares the
stored timestamp against the fresh clock read and fails with `TimeOverflow`
exactly when the stored timestamp has not fallen behind, leaving the stored
pair untouched on that error; the per-context path in a production
(`cfg!(test)` = false) build is clock-independent and never returns
`TimeOverflow`. -/
theorem c7_shared_vs_local_overflow :
  ∀ (stA : AtomState) (n0 n1 m0 m1 m2 m3 m4 m5 : Nat) (stL : LocalState) (nv nv2 i : Nat),
    (stA.seq = 2^14 - 1 → stA.ts ≠ 0 →
      (((next_atom n0 n1 stA).1 = Except.error Error.TimeOverflow) ↔ n1 ≤ stA.ts) ∧
      (n1 ≤ stA.ts → next_atom n0 n1 stA = (Except.error Error.TimeOverflow, stA)) ∧
      (((uuidv1 n0 n1 m0 m1 m2 m3 m4 m5 stA).1 = Except.error Error.TimeOverflow) ↔
        n1 ≤ stA.ts)) ∧
    (next false nv i stL = next false nv2 i stL ∧
      (next false nv i stL).1 ≠ Except.error Error.TimeOverflow) := by
  intro stA n0 n1 m0 m1 m2 m3 m4 m5 stL nv nv2 i
  constructor
  · intro hseq hts
    have hnotlt : ¬ stA.seq < 2^14 - 1 := by omega
    by_cases hcmp : n1 ≤ stA.ts
    · have heq : next_atom n0 n1 stA = (Except.error Error.TimeOverflow, stA) := by
        simp only [next_atom]
        rw [if_neg hts, if_neg hnotlt, if_pos hcmp]
      refine ⟨?_, fun _ => heq, ?_⟩
      · rw [heq]
        simpa using hcmp
      · simp only [uuidv1, heq]
        simpa using hcmp
    · have heq : next_atom n0 n1 stA =
          (Except.ok ((stA.ts + 1) % 2^64, 0), ⟨(stA.ts + 1) % 2^64, 0⟩) := by
        simp only [next_atom]
        rw [if_neg hts, if_neg hnotlt, if_neg hcmp]
      refine ⟨?_, fun hc => absurd hc hcmp, ?_⟩
      · rw [heq]
        simpa using hcmp
      · simp only [uuidv1, heq]
        simpa using hcmp
  · constructor
    · unfold next time_inc
      simp
    · unfold next time_inc
      split
      · simp
      · simp

/-- Witness for `c7_shared_vs_local_overflow`: with the stored timestamp 5 and
a fresh clock read of 5, the shared path reports `TimeOverflow` and keeps its
state. -/
theorem c7_shared_vs_local_overflow_witness :
    ((⟨5, 16383⟩ : AtomState).seq = 2^14 - 1 ∧ (⟨5, 16383⟩ : AtomState).ts ≠ 0 ∧ 5 ≤ 5) ∧
    next_atom 0 5 ⟨5, 16383⟩ = (Except.error Error.TimeOverflow, ⟨5, 16383⟩) := by
  refine ⟨by exact ⟨rfl, by decide, by decide⟩, ?_⟩
  exact ((c7_shared_vs_local_overflow ⟨5, 16383⟩ 0 5 0 0 0 0 0 0 ⟨0, 0⟩ 0 0 0).1
    rfl (by decide)).2.1 (by decide)

/-- Witness for `c8_uuid_version_and_variant` on a concrete generated
identifier. -/
theorem c8_uuid_version_and_variant_witness :
    next_short_128 false 0 5 1 2 3 4 ⟨UUID_TICKS_BETWEEN_EPOCHS, 0⟩ =
      (Except.ok [19, 129, 64, 0, 29, 210, 17, 178, 128, 1, 0, 5, 1, 2, 3, 4],
        ⟨UUID_TICKS_BETWEEN_EPOCHS, 1⟩) ∧
    ([19, 129, 64, 0, 29, 210, 17, 178, 128, 1, 0, 5, 1, 2, 3, 4] : List Nat).getD 6 0 / 2^4 = 1 ∧
    ([19, 129, 64, 0, 29, 210, 17, 178, 128, 1, 0, 5, 1, 2, 3, 4] : List Nat).getD 8 0 / 2^6 = 2 := by
  have h : next_short_128 false 0 5 1 2 3 4 ⟨UUID_TICKS_BETWEEN_EPOCHS, 0⟩ =
      (Except.ok [19, 129, 64, 0, 29, 210, 17, 178, 128, 1, 0, 5, 1, 2, 3, 4],
        ⟨UUID_TICKS_BETWEEN_EPOCHS, 1⟩) := by rfl
  exact ⟨h, (c8_uuid_version_and_variant false 0 0 0 5 1 2 3 4 0 0 0 0
    ⟨UUID_TICKS_BETWEEN_EPOCHS, 0⟩ ⟨UUID_TICKS_BETWEEN_EPOCHS, 1⟩ ⟨0, 0⟩ ⟨0, 0⟩
    [19, 129, 64, 0, 29, 210, 17, 178, 128, 1, 0, 5, 1, 2, 3, 4] []
    0 0 0 0 0 0 0 0 0 0 0 0 0 0 0 0 0 0 0 0).1 h⟩

/-- Witness for `c9_epoch_error_state_advanced`: an epoch one tick in the
future yields `EpochException` while the sequence has still been consumed. -/
theorem c9_epoch_error_state_advanced_witness :
    next_short_96 false 0 7 1 1 1 1 ⟨UUID_TICKS_BETWEEN_EPOCHS, 0⟩ =
      (Except.error Error.EpochException, ⟨UUID_TICKS_BETWEEN_EPOCHS, 1⟩) ∧
    (⟨UUID_TICKS_BETWEEN_EPOCHS, 1⟩ : LocalState) =
      (next false 0 (2^TIMESTAMP42SHIFT) ⟨UUID_TICKS_BETWEEN_EPOCHS, 0⟩).2 := by
  have h : next_short_96 false 0 7 1 1 1 1 ⟨UUID_TICKS_BETWEEN_EPOCHS, 0⟩ =
      (Except.error Error.EpochException, ⟨UUID_TICKS_BETWEEN_EPOCHS, 1⟩) := by rfl
  exact ⟨h, ((c9_epoch_error_state_advanced false 0 7 1 1 1 1
    ⟨UUID_TICKS_BETWEEN_EPOCHS, 0⟩ ⟨UUID_TICKS_BETWEEN_EPOCHS, 1⟩).1 h).1⟩

/-- Claim C2 (amended): with sequence headroom a call increments the sequence,
returns the stored timestamp and never consults the clock; at the ceiling the
timestamp advances by exactly the interval the caller passed — 1 tick for
`next_short_128`, `2^13` ticks for `next_short_96`, and 10000 ticks for
`next_short_64` — with the sequence reset to 0; hence `C+1 = 2^14` calls from
a fresh sequence yield exactly one such bump. -/
theorem c2_transition_rule :
  ∀ (isT isT2 : Bool) (nv nv2 i w m0 m1 m2 m3 epoch t k : Nat) (st : LocalState),
    (st.seq < 2^14 - 1 →
      next isT nv i st =
        (Except.ok (st.timestamp, st.seq + 1), ⟨st.timestamp, st.seq + 1⟩) ∧
      next isT nv i st = next isT2 nv2 i st) ∧
    (¬ st.seq < 2^14 - 1 → st.timestamp + 10000 < 2^64 →
      (next_short_128 false nv w m0 m1 m2 m3 st).2 = ⟨st.timestamp + 1, 0⟩ ∧
      (next_short_96 false nv w m0 m1 m2 epoch st).2 =
        ⟨st.timestamp + 2^TIMESTAMP42SHIFT, 0⟩ ∧
      (w / 2^8 % 2^8 = 0 →
        (next_short_64 false nv w epoch st).2 = ⟨st.timestamp + 10000, 0⟩)) ∧
    (k ≤ 2^14 - 1 → (nextState i)^[k] ⟨t, 0⟩ = ⟨t, k⟩) ∧
    (t + i < 2^64 →
      (nextState i)^[2^14] ⟨t, 0⟩ = ⟨t + i, 0⟩ ∧
      (next false 0 i ((nextState i)^[2^14 - 1] ⟨t, 0⟩)).1 = Except.ok (t + i, 0)) := by
  intro isT isT2 nv nv2 i w m0 m1 m2 m3 epoch t k st
  refine ⟨?_, ?_, nextState_iter_seq i t k, ?_⟩
  · intro hlt
    exact ⟨next_seq_lt isT nv i st hlt,
      by rw [next_seq_lt isT nv i st hlt, next_seq_lt isT2 nv2 i st hlt]⟩
  · intro hge hno
    have h128 : st.timestamp + 1 < 2^64 := by omega
    have h96 : st.timestamp + 2^TIMESTAMP42SHIFT < 2^64 := by
      simp only [TIMESTAMP42SHIFT]
      omega
    refine ⟨?_, ?_, ?_⟩
    · rw [next_short_128_snd, next_false_wrap nv 1 st hge]
      simp only
      rw [Nat.mod_eq_of_lt h128]
    · rw [next_short_96_snd, next_false_wrap nv _ st hge]
      simp only
      rw [Nat.mod_eq_of_lt h96]
    · intro hw
      rw [next_short_64_snd false nv w epoch st (by omega),
        next_false_wrap nv _ st hge]
      simp only
      rw [Nat.mod_eq_of_lt hno]
  · intro hno
    have hlast : (nextState i)^[2^14 - 1] ⟨t, 0⟩ = ⟨t, 2^14 - 1⟩ :=
      nextState_iter_seq i t (2^14 - 1) (by omega)
    constructor
    · have : (2^14 : Nat) = (2^14 - 1) + 1 := by omega
      rw [this, Function.iterate_succ_apply', hlast]
      unfold nextState
      rw [next_false_wrap 0 i ⟨t, 2^14 - 1⟩ (by show ¬ (2^14 - 1 : Nat) < 2^14 - 1; omega)]
      simp only
      rw [Nat.mod_eq_of_lt hno]
    · rw [hlast,
        next_false_wrap 0 i ⟨t, 2^14 - 1⟩ (by show ¬ (2^14 - 1 : Nat) < 2^14 - 1; omega)]
      simp only
      rw [Nat.mod_eq_of_lt hno]

/-- Claim C2 counterexample: at the sequence ceiling the 64-bit generator
advances the per-context timestamp by 10000 ticks, not by `2^13 = 8192` as
claimed. -/
theorem c2_counterexample_64_increment :
    (next_short_64 false 0 0 0 ⟨UUID_TICKS_BETWEEN_EPOCHS, 16383⟩).2 =
      ⟨UUID_TICKS_BETWEEN_EPOCHS + 10000, 0⟩ ∧
    UUID_TICKS_BETWEEN_EPOCHS + 10000 ≠ UUID_TICKS_BETWEEN_EPOCHS + 2^13 := by
  exact ⟨by rfl, by decide⟩

/-- Witness for `c2_transition_rule` at the sequence ceiling. -/
theorem c2_transition_rule_witness :
    (¬ (⟨UUID_TICKS_BETWEEN_EPOCHS, 16383⟩ : LocalState).seq < 2^14 - 1 ∧
      (⟨UUID_TICKS_BETWEEN_EPOCHS, 16383⟩ : LocalState).timestamp + 10000 < 2^64) ∧
    (next_short_128 false 0 0 1 2 3 4 ⟨UUID_TICKS_BETWEEN_EPOCHS, 16383⟩).2 =
      ⟨UUID_TICKS_BETWEEN_EPOCHS + 1, 0⟩ ∧
    (next_short_96 false 0 0 1 2 3 0 ⟨UUID_TICKS_BETWEEN_EPOCHS, 16383⟩).2 =
      ⟨UUID_TICKS_BETWEEN_EPOCHS + 2^TIMESTAMP42SHIFT, 0⟩ ∧
    (next_short_64 false 0 0 0 ⟨UUID_TICKS_BETWEEN_EPOCHS, 16383⟩).2 =
      ⟨UUID_TICKS_BETWEEN_EPOCHS + 10000, 0⟩ := by
  have h := (c2_transition_rule false false 0 0 1 0 1 2 3 4 0 0 0
    ⟨UUID_TICKS_BETWEEN_EPOCHS, 16383⟩).2.1 (by decide) (by decide)
  exact ⟨⟨by decide, by decide⟩, h.1, h.2.1, h.2.2 (by decide)⟩
end Shortid
